import Mathlib

/-!
# Fury engine: the Camera component (`engine/Fury/Camera.cpp`)

A shallow embedding of `fury::Camera` and of the collaborators it calls.
Scalars (`float` in the source) are rationals.  Where a statement is about data
flow, or about arithmetic that `float` carries out without error, the operations
are the exact ones; where rounding decides the statement (the scaling in
`GetFrustum(near, far)`), each operation is followed by `binary32`, the rounding
to single precision.

`Camera.cpp` is embedded function by function.  The collaborating classes
(`Vector4`, `BoxBounds`, `Matrix4`, `Frustum`, `Signal`, `SceneNode`) have no
source file here; each is modelled from the specification and marked so.
-/

namespace fury

/-! ## Collaborators -/

/-- Modelled from the spec: the class `Vector4` (no source file here), used by the
camera only as a point in space; the spec names points by three coordinates, and
those are what is kept. -/
structure Vector4 where
  x : ℚ
  y : ℚ
  z : ℚ
deriving DecidableEq, Repr

/-- Modelled from the spec: the one-argument constructor `Vector4(v)` (no source
file here), every coordinate set to `v`; `Vector4(0)` is the origin. -/
def Vector4.ofScalar (v : ℚ) : Vector4 := ⟨v, v, v⟩

/-- Component-wise minimum of two points. -/
def Vector4.cmin (p q : Vector4) : Vector4 := ⟨min p.x q.x, min p.y q.y, min p.z q.z⟩

/-- Component-wise maximum of two points. -/
def Vector4.cmax (p q : Vector4) : Vector4 := ⟨max p.x q.x, max p.y q.y, max p.z q.z⟩

/-- Modelled from the spec: the class `BoxBounds` (no source file here), an
axis-aligned box given by its two corners. -/
structure BoxBounds where
  m_Min : Vector4
  m_Max : Vector4
deriving DecidableEq, Repr

/-- Modelled from the spec: `BoxBounds::SetMinMax` (no source file here).  The spec
says the box is overwritten from two corner points, "with the box normalizing
component-wise min/max internally (callers need not pre-sort min/max)". -/
def BoxBounds.SetMinMax (_b : BoxBounds) (min max : Vector4) : BoxBounds :=
  ⟨Vector4.cmin min max, Vector4.cmax min max⟩

/-- Modelled from the spec: the constructor `BoxBounds(min, max)` (no source file
here): "constructed from min/max corner points, normalizes ordering". -/
def BoxBounds.ofCorners (min max : Vector4) : BoxBounds :=
  ⟨Vector4.cmin min max, Vector4.cmax min max⟩

/-- Modelled from the spec: the class `Matrix4` (no source file here), a 4×4
transform kept as its sixteen entries in column-major order. -/
structure Matrix4 where
  Raw : List ℚ
deriving DecidableEq, Repr

/-- Modelled from the spec: the default constructor `Matrix4()` (no source file
here), the identity transform. -/
def Matrix4.identity : Matrix4 :=
  ⟨[1, 0, 0, 0,  0, 1, 0, 0,  0, 0, 1, 0,  0, 0, 0, 1]⟩

/-- Modelled from the spec: `Matrix4::PerspectiveOffCenter` (no source file here),
the "perspective-off-center construction" from six extents.  It overwrites the
whole matrix, so the result depends on the six arguments only. -/
def Matrix4.PerspectiveOffCenter (left right bottom top near far : ℚ) : Matrix4 :=
  ⟨[2 * near / (right - left), 0, 0, 0,
    0, 2 * near / (top - bottom), 0, 0,
    (right + left) / (right - left), (top + bottom) / (top - bottom),
      -(far + near) / (far - near), -1,
    0, 0, -(2 * far * near) / (far - near), 0]⟩

/-- Modelled from the spec: `Matrix4::OrthoOffCenter` (no source file here), the
"orthographic-off-center construction" from six extents.  It overwrites the whole
matrix, so the result depends on the six arguments only. -/
def Matrix4.OrthoOffCenter (left right bottom top near far : ℚ) : Matrix4 :=
  ⟨[2 / (right - left), 0, 0, 0,
    0, 2 / (top - bottom), 0, 0,
    0, 0, -2 / (far - near), 0,
    -(right + left) / (right - left), -(top + bottom) / (top - bottom),
      -(far + near) / (far - near), 1]⟩

/-- Entry `i` of the column-major array `Raw`. -/
def Matrix4.entry (m : Matrix4) (i : Nat) : ℚ := m.Raw.getD i 0

/-- Modelled from the spec: `Matrix4::Multiply(Vector4)` (no source file here), the
matrix applied to a point (homogeneous coordinate 1). -/
def Matrix4.MultiplyPoint (m : Matrix4) (v : Vector4) : Vector4 :=
  ⟨m.entry 0 * v.x + m.entry 4 * v.y + m.entry 8 * v.z + m.entry 12,
   m.entry 1 * v.x + m.entry 5 * v.y + m.entry 9 * v.z + m.entry 13,
   m.entry 2 * v.x + m.entry 6 * v.y + m.entry 10 * v.z + m.entry 14⟩

/-- The eight corners of a box. -/
def BoxBounds.corners (b : BoxBounds) : List Vector4 :=
  [⟨b.m_Min.x, b.m_Min.y, b.m_Min.z⟩, ⟨b.m_Max.x, b.m_Min.y, b.m_Min.z⟩,
   ⟨b.m_Min.x, b.m_Max.y, b.m_Min.z⟩, ⟨b.m_Max.x, b.m_Max.y, b.m_Min.z⟩,
   ⟨b.m_Min.x, b.m_Min.y, b.m_Max.z⟩, ⟨b.m_Max.x, b.m_Min.y, b.m_Max.z⟩,
   ⟨b.m_Min.x, b.m_Max.y, b.m_Max.z⟩, ⟨b.m_Max.x, b.m_Max.y, b.m_Max.z⟩]

/-- Modelled from the spec: `Matrix4::Multiply(BoxBounds)` (no source file here),
"matrix multiplication against a box bound": the axis-aligned box around the eight
transformed corners. -/
def Matrix4.Multiply (m : Matrix4) (b : BoxBounds) : BoxBounds :=
  let p := m.MultiplyPoint b.m_Min
  (b.corners.map m.MultiplyPoint).foldl
    (fun acc q => ⟨Vector4.cmin acc.m_Min q, Vector4.cmax acc.m_Max q⟩) ⟨p, p⟩

/-- Modelled from the spec: the class `Frustum` (no source file here), the
Projection Volume: "a six-plane region of space plus an associated rigid/affine
world transform".  The region is kept as the six off-center extents it was set up
from, the world placement as "a separate transform applied on top". -/
structure Frustum where
  m_Left : ℚ
  m_Right : ℚ
  m_Bottom : ℚ
  m_Top : ℚ
  m_Near : ℚ
  m_Far : ℚ
  m_TransformMatrix : Matrix4
deriving DecidableEq, Repr

/-- Modelled from the spec: the default constructor `Frustum()` (no source file
here): degenerate extents, identity placement. -/
def Frustum.new : Frustum := ⟨0, 0, 0, 0, 0, 0, Matrix4.identity⟩

/-- Modelled from the spec: `Frustum::Setup(l, r, b, t, near, far)` (no source file
here), "construction from six off-center extents"; the world placement is a
separate transform and is not an argument, so it is kept. -/
def Frustum.Setup (f : Frustum) (left right bottom top near far : ℚ) : Frustum :=
  { f with m_Left := left, m_Right := right, m_Bottom := bottom, m_Top := top,
           m_Near := near, m_Far := far }

/-- Modelled from the spec: `Frustum::Transform(worldMatrix)` (no source file
here), which "mutates in place", "overwriting its world placement, not
compounding it". -/
def Frustum.Transform (f : Frustum) (matrix : Matrix4) : Frustum :=
  { f with m_TransformMatrix := matrix }

/-- Modelled from the spec: `Frustum::GetTransformMatrix()` (no source file here),
a "read-only accessor returning the last-applied world transform". -/
def Frustum.GetTransformMatrix (f : Frustum) : Matrix4 := f.m_TransformMatrix

/-! ## The camera -/

/-- The data members of `fury::Camera` that `Camera.cpp` reads and writes.
`m_ProjectionParams` is the six-element array `[left, right, bottom, top, near,
far]`. -/
structure Camera where
  m_Perspective : Bool
  m_ProjectionParams : List ℚ
  m_ProjectionMatrix : Matrix4
  m_Frustum : Frustum
  m_ShadowAABB : BoxBounds
  m_ShadowFar : ℚ
  m_SignalKey : Nat
deriving DecidableEq, Repr

/-- Element `i` of the array `m_ProjectionParams`. -/
def Camera.param (c : Camera) (i : Nat) : ℚ := c.m_ProjectionParams.getD i 0

/-- The constructor `Camera::Camera()` (named `new`, as `Camera.Camera` would
shadow the type): the mode flag is false and the shadow box
is `BoxBounds(Vector4(0), Vector4(0))`.  The members it does not mention take
their declared initial state (the header is not among the sources): zero
parameters, default matrix and volume, and the "no subscription" handle 0, as the
spec has a camera "created detached with all derived state empty/degenerate".
Neither the constructor nor the spec fixes the initial `m_ShadowFar`; it is the
argument `shadowFar0`. -/
def Camera.new (shadowFar0 : ℚ) : Camera :=
  { m_Perspective := false
    m_ProjectionParams := [0, 0, 0, 0, 0, 0]
    m_ProjectionMatrix := Matrix4.identity
    m_Frustum := Frustum.new
    m_ShadowAABB := BoxBounds.ofCorners (Vector4.ofScalar 0) (Vector4.ofScalar 0)
    m_ShadowFar := shadowFar0
    m_SignalKey := 0 }

/-- The factory `Camera::Create()`: a freshly constructed camera. -/
def Camera.Create (shadowFar0 : ℚ) : Camera := Camera.new shadowFar0

/-- The method `Camera::Clone()`: a fresh camera into which five members are
copied. -/
def Camera.Clone (shadowFar0 : ℚ) (c : Camera) : Camera :=
  let ptr := Camera.Create shadowFar0
  { ptr with
    m_ProjectionParams := c.m_ProjectionParams
    m_Perspective := c.m_Perspective
    m_ProjectionMatrix := c.m_ProjectionMatrix
    m_Frustum := c.m_Frustum
    m_ShadowAABB := c.m_ShadowAABB }

/-- The method `Camera::PerspectiveFov(fov, ratio, near, far)`; the library
function `tan` is the argument `tan`, and the source's `ratio` is `aspect`. -/
def Camera.PerspectiveFov (tan : ℚ → ℚ) (c : Camera) (fov aspect near far : ℚ) : Camera :=
  let top := near * tan (fov / 2)
  let right := top * aspect
  { c with
    m_Perspective := true
    m_ProjectionParams := [-right, right, -top, top, near, far]
    m_ProjectionMatrix := Matrix4.PerspectiveOffCenter (-right) right (-top) top near far
    m_Frustum := c.m_Frustum.Setup (-right) right (-top) top near far }

/-- The method `Camera::PerspectiveOffCenter(left, right, bottom, top, near, far)`. -/
def Camera.PerspectiveOffCenter (c : Camera) (left right bottom top near far : ℚ) : Camera :=
  { c with
    m_ProjectionParams := [left, right, bottom, top, near, far]
    m_Perspective := true
    m_ProjectionMatrix := Matrix4.PerspectiveOffCenter left right bottom top near far
    m_Frustum := c.m_Frustum.Setup left right bottom top near far }

/-- The method `Camera::OrthoOffCenter(left, right, bottom, top, near, far)`: the
flag is set to `true`, the matrix is the orthographic one. -/
def Camera.OrthoOffCenter (c : Camera) (left right bottom top near far : ℚ) : Camera :=
  { c with
    m_Perspective := true
    m_ProjectionParams := [left, right, bottom, top, near, far]
    m_ProjectionMatrix := Matrix4.OrthoOffCenter left right bottom top near far
    m_Frustum := c.m_Frustum.Setup left right bottom top near far }

/-- The method `Camera::GetProjectionMatrix()`. -/
def Camera.GetProjectionMatrix (c : Camera) : Matrix4 := c.m_ProjectionMatrix

/-- The method `Camera::GetProjectionMatrix(near, far)`. -/
def Camera.GetProjectionMatrix2 (c : Camera) (near far : ℚ) : Matrix4 :=
  if c.m_Perspective then
    Matrix4.PerspectiveOffCenter (c.param 0) (c.param 1) (c.param 2) (c.param 3) near far
  else
    Matrix4.OrthoOffCenter (c.param 0) (c.param 1) (c.param 2) (c.param 3) near far

/-- The method `Camera::GetNear()`. -/
def Camera.GetNear (c : Camera) : ℚ := c.param 4

/-- The method `Camera::GetFar()`. -/
def Camera.GetFar (c : Camera) : ℚ := c.param 5

/-- The method `Camera::GetFrustum()`. -/
def Camera.GetFrustum (c : Camera) : Frustum := c.m_Frustum

/-- The method `Camera::GetFrustum(near, far)`. -/
def Camera.GetFrustum2 (c : Camera) (near far : ℚ) : Frustum :=
  let clone := Frustum.new
  let curNear := c.GetNear
  let curLeft := c.param 0
  let curRight := c.param 1
  let curBottom := c.param 2
  let curTop := c.param 3
  let toNear := near / curNear
  let top := curTop * toNear
  let right := curRight * toNear
  let bottom := curBottom * toNear
  let left := curLeft * toNear
  let clone := clone.Setup left right bottom top near far
  clone.Transform c.m_Frustum.GetTransformMatrix

/-- The method `Camera::GetShadowFar()`. -/
def Camera.GetShadowFar (c : Camera) : ℚ := c.m_ShadowFar

/-- The method `Camera::SetShadowFar(far)`. -/
def Camera.SetShadowFar (c : Camera) (far : ℚ) : Camera := { c with m_ShadowFar := far }

/-- The method `Camera::GetShadowBounds(worldSpace)`. -/
def Camera.GetShadowBounds (c : Camera) (worldSpace : Bool) : BoxBounds :=
  if worldSpace then
    c.m_Frustum.GetTransformMatrix.Multiply c.m_ShadowAABB
  else
    c.m_ShadowAABB

/-- The method `Camera::SetShadowBounds(min, max)`. -/
def Camera.SetShadowBounds (c : Camera) (min max : Vector4) : Camera :=
  { c with m_ShadowAABB := c.m_ShadowAABB.SetMinMax min max }

/-- The method `Camera::IsPerspective()`. -/
def Camera.IsPerspective (c : Camera) : Bool := c.m_Perspective

/-- The method `Camera::Transform(matrix)`. -/
def Camera.Transform (c : Camera) (matrix : Matrix4) : Camera :=
  { c with m_Frustum := c.m_Frustum.Transform matrix }

/-! ## Scene-node synchronisation -/

/-- Modelled from the spec: the class `Signal` (no source file here), the
transform-change channel: "an explicit registry of callback handles", the node
"owning the callback table".  A slot is a handle together with the identity of the
subscribed camera; handles are positive, 0 being the "no subscription" value. -/
structure Signal where
  m_NextKey : Nat
  m_Slots : List (Nat × Nat)
deriving DecidableEq, Repr

/-- Modelled from the spec: `Signal::Connect` (no source file here): a new slot for
`receiver` under a handle not handed out before, which is returned. -/
def Signal.Connect (s : Signal) (receiver : Nat) : Nat × Signal :=
  (s.m_NextKey + 1,
   { m_NextKey := s.m_NextKey + 1, m_Slots := s.m_Slots ++ [(s.m_NextKey + 1, receiver)] })

/-- Modelled from the spec: `Signal::Disconnect` (no source file here): the slots
under the handle `key` are removed. -/
def Signal.Disconnect (s : Signal) (key : Nat) : Signal :=
  { s with m_Slots := s.m_Slots.filter (fun e => e.1 != key) }

/-- Modelled from the spec: the class `SceneNode` (no source file here), the Scene
Node Observable, which "exposes a world transform and a change notification
channel". -/
structure SceneNode where
  m_WorldMatrix : Matrix4
  OnTransformChange : Signal
deriving DecidableEq, Repr

/-- Modelled from the spec: `SceneNode::GetWorldMatrix()` (no source file here). -/
def SceneNode.GetWorldMatrix (n : SceneNode) : Matrix4 := n.m_WorldMatrix

/-- The cameras of a scene, by identity, and the scene node they attach to. -/
structure World where
  cameras : Nat → Camera
  node : SceneNode

/-- The camera `self` replaced by `c`. -/
def World.setCamera (cams : Nat → Camera) (self : Nat) (c : Camera) : Nat → Camera :=
  fun i => if i = self then c else cams i

/-- The method `Camera::OnSceneNodeTransformChange(sender)`. -/
def Camera.OnSceneNodeTransformChange (c : Camera) (sender : SceneNode) : Camera :=
  c.Transform sender.GetWorldMatrix

/-- The method `Camera::OnAttaching(node)` for the camera `self`: the camera is
connected to the node's channel and keeps the handle.  (`Component::OnAttaching`
has no source file here and touches none of the members modelled.) -/
def Camera.OnAttaching (w : World) (self : Nat) : World :=
  let r := w.node.OnTransformChange.Connect self
  { cameras := World.setCamera w.cameras self { w.cameras self with m_SignalKey := r.1 }
    node := { w.node with OnTransformChange := r.2 } }

/-- The method `Camera::OnDetaching(node)` for the camera `self`: the stored handle
is disconnected, then cleared to 0.  (`Component::OnDetaching` has no source file
here and touches none of the members modelled.) -/
def Camera.OnDetaching (w : World) (self : Nat) : World :=
  { cameras := World.setCamera w.cameras self { w.cameras self with m_SignalKey := 0 }
    node := { w.node with
      OnTransformChange := w.node.OnTransformChange.Disconnect (w.cameras self).m_SignalKey } }

/-- Modelled from the spec: `Signal::Emit` (no source file here): the callback of
every slot is run, in order, on its subscribed camera with the sending node. -/
def Signal.Emit (s : Signal) (sender : SceneNode) (cams : Nat → Camera) : Nat → Camera :=
  s.m_Slots.foldl
    (fun cs e => World.setCamera cs e.2 ((cs e.2).OnSceneNodeTransformChange sender)) cams

/-- Modelled from the spec: a transform-change event of the node "carrying matrix
M" (no source file here): the node's world matrix becomes `M` and its channel
notifies the subscribers. -/
def World.transformChange (w : World) (M : Matrix4) : World :=
  let node := { w.node with m_WorldMatrix := M }
  { cameras := node.OnTransformChange.Emit node w.cameras, node := node }

/-- A run of transform-change events, one per matrix, in order. -/
def World.transformChanges (w : World) (Ms : List Matrix4) : World :=
  Ms.foldl World.transformChange w

/-- Whether the camera `self` has a slot in the node's channel. -/
def World.subscribed (w : World) (self : Nat) : Bool :=
  w.node.OnTransformChange.m_Slots.any (fun e => e.2 == self)

/-- A scene of fresh cameras around a node with an empty subscriber table. -/
def World.fresh : World :=
  { cameras := fun _ => Camera.Create 0, node := ⟨Matrix4.identity, ⟨0, []⟩⟩ }

/-- The translation by `(x, y, z)` as a matrix. -/
def Matrix4.translation (x y z : ℚ) : Matrix4 :=
  ⟨[1, 0, 0, 0,  0, 1, 0, 0,  0, 0, 1, 0,  x, y, z, 1]⟩

/-! ## Calls of the setup operations -/

/-- A call of one of the three setup operations, with its arguments. -/
inductive SetupCall where
  | perspectiveFov (fov aspect near far : ℚ)
  | perspectiveOffCenter (left right bottom top near far : ℚ)
  | orthoOffCenter (left right bottom top near far : ℚ)
deriving DecidableEq, Repr

/-- The camera after the call. -/
def SetupCall.run (tan : ℚ → ℚ) (c : Camera) : SetupCall → Camera
  | .perspectiveFov fov aspect near far => c.PerspectiveFov tan fov aspect near far
  | .perspectiveOffCenter l r b t n f => c.PerspectiveOffCenter l r b t n f
  | .orthoOffCenter l r b t n f => c.OrthoOffCenter l r b t n f

/-- The near distance the call passes on. -/
def SetupCall.near : SetupCall → ℚ
  | .perspectiveFov _ _ near _ => near
  | .perspectiveOffCenter _ _ _ _ n _ => n
  | .orthoOffCenter _ _ _ _ n _ => n

/-- The far distance the call passes on. -/
def SetupCall.far : SetupCall → ℚ
  | .perspectiveFov _ _ _ far => far
  | .perspectiveOffCenter _ _ _ _ _ f => f
  | .orthoOffCenter _ _ _ _ _ f => f

/-- The viewing parameters the spec calls invalid: `near ≥ far`, a non-positive
`near`, `left ≥ right` or `bottom ≥ top`. -/
def invalidExtents (left right bottom top near far : ℚ) : Prop :=
  far ≤ near ∨ near ≤ 0 ∨ right ≤ left ∨ top ≤ bottom

/-- A run of `Camera::Transform` calls, one per matrix, in order. -/
def Camera.Transforms (c : Camera) (Ms : List Matrix4) : Camera :=
  Ms.foldl Camera.Transform c

/-! ## Single-precision rounding -/

/-- Rounding of a rational to the nearest integer, ties to the even one. -/
def roundHalfEven (y : ℚ) : ℤ :=
  if y - ⌊y⌋ < 1 / 2 then ⌊y⌋
  else if 1 / 2 < y - ⌊y⌋ then ⌊y⌋ + 1
  else if ⌊y⌋ % 2 = 0 then ⌊y⌋ else ⌊y⌋ + 1

/-- The exponent of the last place of the 24-bit significand of a `float` near `x`;
it stops at -149, where the subnormal numbers begin. -/
def ulpExponent32 (x : ℚ) : ℤ := max (Int.log 2 |x| - 23) (-149)

/-- The value a `float` operation stores for the exact result `x`: IEEE-754
binary32 rounding, to nearest with ties to even, subnormal numbers included.
Results beyond the largest finite `float`, which the machine turns into an
infinity, are outside this function. -/
def binary32 (x : ℚ) : ℚ :=
  roundHalfEven (x / 2 ^ ulpExponent32 x) * 2 ^ ulpExponent32 x

/-- An exact result that is zero or of a magnitude where `float` neither underflows
nor overflows. -/
def inRange32 (x : ℚ) : Prop := x = 0 ∨ (1 / 2 ^ 126 ≤ |x| ∧ |x| ≤ 2 ^ 127)

/-- The method `Camera::GetFrustum(near, far)` as `float` arithmetic computes it:
the statements of `GetFrustum2`, with the quotient and each of the four products
rounded to single precision. -/
def Camera.GetFrustum2F (c : Camera) (near far : ℚ) : Frustum :=
  let clone := Frustum.new
  let curNear := c.GetNear
  let curLeft := c.param 0
  let curRight := c.param 1
  let curBottom := c.param 2
  let curTop := c.param 3
  let toNear := binary32 (near / curNear)
  let top := binary32 (curTop * toNear)
  let right := binary32 (curRight * toNear)
  let bottom := binary32 (curBottom * toNear)
  let left := binary32 (curLeft * toNear)
  let clone := clone.Setup left right bottom top near far
  clone.Transform c.m_Frustum.GetTransformMatrix

/-- A perspective camera with extents `[-1, 1, -1, 1]`, near `0.7f` (the `float`
nearest to 0.7, `11744051 / 2^24`) and far 10. -/
def Camera.nearSevenTenths : Camera :=
  (Camera.Create 0).PerspectiveOffCenter (-1) 1 (-1) 1 (11744051 / 16777216) 10

/-- The stored volume has the stored parameters as its extents. -/
def Camera.volumeMatchesParams (c : Camera) : Prop :=
  c.m_Frustum.m_Left = c.param 0 ∧ c.m_Frustum.m_Right = c.param 1 ∧
  c.m_Frustum.m_Bottom = c.param 2 ∧ c.m_Frustum.m_Top = c.param 3 ∧
  c.m_Frustum.m_Near = c.param 4 ∧ c.m_Frustum.m_Far = c.param 5

/-! ## Supporting lemmas -/

/-- The orthographic matrix is never a perspective matrix: their last entries are
1 and 0. -/
theorem ortho_ne_perspective (l r b t n f l2 r2 b2 t2 n2 f2 : ℚ) :
    Matrix4.OrthoOffCenter l r b t n f ≠ Matrix4.PerspectiveOffCenter l2 r2 b2 t2 n2 f2 := by
  intro h
  have h15 := congrArg (fun m => Matrix4.entry m 15) h
  simp [Matrix4.entry, Matrix4.OrthoOffCenter, Matrix4.PerspectiveOffCenter] at h15

/-- After `PerspectiveOffCenter` the stored matrix is the re-derived one. -/
theorem perspectiveOffCenter_rederives (c : Camera) (l r b t n f : ℚ) :
    (c.PerspectiveOffCenter l r b t n f).GetProjectionMatrix =
      (c.PerspectiveOffCenter l r b t n f).GetProjectionMatrix2
        (c.PerspectiveOffCenter l r b t n f).GetNear
        (c.PerspectiveOffCenter l r b t n f).GetFar := by
  rfl

/-- After `PerspectiveFov` the stored matrix is the re-derived one. -/
theorem perspectiveFov_rederives (tan : ℚ → ℚ) (c : Camera) (fov aspect n f : ℚ) :
    (c.PerspectiveFov tan fov aspect n f).GetProjectionMatrix =
      (c.PerspectiveFov tan fov aspect n f).GetProjectionMatrix2
        (c.PerspectiveFov tan fov aspect n f).GetNear
        (c.PerspectiveFov tan fov aspect n f).GetFar := by
  rfl

/-- After `OrthoOffCenter`, whatever the arguments, the stored matrix is the
orthographic one and the re-derived one the perspective one, so they differ. -/
theorem orthoOffCenter_never_rederives (c : Camera) (l r b t n f : ℚ) :
    (c.OrthoOffCenter l r b t n f).GetProjectionMatrix ≠
      (c.OrthoOffCenter l r b t n f).GetProjectionMatrix2
        (c.OrthoOffCenter l r b t n f).GetNear
        (c.OrthoOffCenter l r b t n f).GetFar := by
  have h : (c.OrthoOffCenter l r b t n f).GetProjectionMatrix2
        (c.OrthoOffCenter l r b t n f).GetNear (c.OrthoOffCenter l r b t n f).GetFar
      = Matrix4.PerspectiveOffCenter l r b t n f := rfl
  rw [h]
  exact ortho_ne_perspective l r b t n f l r b t n f

/-- The scale factor of `GetFrustum(near, far)` at `near = k * n` is `k`. -/
theorem scale_cancel (x k n : ℚ) (h : n ≠ 0) : x * (k * n / n) = k * x := by
  field_simp
  ring

/-- In exact arithmetic the scaling is exact: with a non-zero stored near `n0`,
`GetFrustum2` at `k * n0` sets up `(k*l, k*r, k*b, k*t, k*n0, far)`. -/
theorem getFrustum2_scales_exact (c : Camera) (k far : ℚ) (hn : c.GetNear ≠ 0) :
    c.GetFrustum2 (k * c.GetNear) far =
      (Frustum.new.Setup (k * c.param 0) (k * c.param 1) (k * c.param 2) (k * c.param 3)
        (k * c.GetNear) far).Transform c.m_Frustum.GetTransformMatrix := by
  have h := fun x => scale_cancel x k c.GetNear hn
  simp only [Camera.GetFrustum2, h]

/-- Every setup call leaves the volume built from the stored parameters. -/
theorem setup_volumeMatchesParams (tan : ℚ → ℚ) (c : Camera) (s : SetupCall) :
    (s.run tan c).volumeMatchesParams := by
  cases s <;> exact ⟨rfl, rfl, rfl, rfl, rfl, rfl⟩

/-- Every setup call stores the near distance it is given. -/
theorem setup_getNear (tan : ℚ → ℚ) (c : Camera) (s : SetupCall) :
    (s.run tan c).GetNear = s.near := by
  cases s <;> rfl

/-- The method `Transform` changes neither the parameters nor the extents. -/
theorem transforms_keep (Ms : List Matrix4) (c : Camera) :
    (c.Transforms Ms).m_ProjectionParams = c.m_ProjectionParams ∧
    ((c.Transforms Ms).volumeMatchesParams ↔ c.volumeMatchesParams) := by
  induction Ms generalizing c with
  | nil => exact ⟨rfl, Iff.rfl⟩
  | cons M Ms ih =>
    have h := ih (c.Transform M)
    exact ⟨h.1, h.2⟩

/-- With the volume built from the stored parameters and a non-zero stored near,
re-deriving at the stored near and far gives the stored volume. -/
theorem getFrustum2_own (c : Camera) (hv : c.volumeMatchesParams) (hn : c.GetNear ≠ 0) :
    c.GetFrustum2 c.GetNear c.GetFar = c.GetFrustum := by
  obtain ⟨h0, h1, h2, h3, h4, h5⟩ := hv
  have hs : c.GetNear / c.GetNear = 1 := div_self hn
  cases hc : c.m_Frustum with
  | mk fl fr fb ft fn ff fm =>
    simp only [hc] at h0 h1 h2 h3 h4 h5
    simp only [Camera.GetFrustum2, Camera.GetFrustum, Frustum.Setup, Frustum.Transform,
      Frustum.new, Frustum.GetTransformMatrix, hs, mul_one, hc]
    simp only [Camera.GetNear, Camera.GetFar, ← h0, ← h1, ← h2, ← h3, ← h4, ← h5]

/-- One notification: a subscribed camera is transformed by the sender's world
matrix, any other camera is left as it is. -/
theorem emit_slots (slots : List (Nat × Nat)) (sender : SceneNode) (cams : Nat → Camera)
    (self : Nat) :
    (slots.foldl
      (fun cs e => World.setCamera cs e.2 ((cs e.2).OnSceneNodeTransformChange sender))
      cams) self
      = if slots.any (fun e => e.2 == self) then (cams self).Transform sender.GetWorldMatrix
        else cams self := by
  induction slots generalizing cams with
  | nil => simp
  | cons e es ih =>
    simp only [List.foldl_cons, List.any_cons]
    rw [ih]
    by_cases he : e.2 = self
    · simp only [World.setCamera, he, Camera.OnSceneNodeTransformChange, if_true,
        beq_self_eq_true, Bool.true_or]
      split <;> rfl
    · have he2 : ¬ self = e.2 := fun h => he h.symm
      have hb : (e.2 == self) = false := beq_false_of_ne he
      simp only [World.setCamera, he2, if_false, hb, Bool.false_or]

/-- A transform-change event at camera `self`. -/
theorem transformChange_camera (w : World) (M : Matrix4) (self : Nat) :
    (w.transformChange M).cameras self
      = if w.subscribed self then (w.cameras self).Transform M else w.cameras self := by
  simp only [World.transformChange, Signal.Emit, World.subscribed]
  rw [emit_slots]
  rfl

/-- A transform-change event leaves the subscriber table as it is. -/
theorem transformChange_signal (w : World) (M : Matrix4) :
    (w.transformChange M).node.OnTransformChange = w.node.OnTransformChange := rfl

/-- A run of events leaves the subscriber table as it is. -/
theorem transformChanges_signal (Ms : List Matrix4) (w : World) :
    (w.transformChanges Ms).node.OnTransformChange = w.node.OnTransformChange := by
  induction Ms generalizing w with
  | nil => rfl
  | cons M Ms ih => exact (ih (w.transformChange M)).trans (transformChange_signal w M)

/-- A run of events leaves a camera without a slot as it is. -/
theorem transformChanges_unsubscribed (Ms : List Matrix4) (w : World) (self : Nat)
    (h : w.subscribed self = false) :
    (w.transformChanges Ms).cameras self = w.cameras self := by
  induction Ms generalizing w with
  | nil => rfl
  | cons M Ms ih =>
    have h1 : (w.transformChange M).subscribed self = false := h
    have h2 := ih (w.transformChange M) h1
    have h3 : (w.transformChange M).cameras self = w.cameras self := by
      rw [transformChange_camera, h]; rfl
    exact h2.trans h3

/-- A run of events changes, of a camera, at most the placement of its volume. -/
theorem transformChanges_keep (Ms : List Matrix4) (w : World) (self : Nat) :
    ((w.transformChanges Ms).cameras self).m_SignalKey = (w.cameras self).m_SignalKey ∧
    ∀ M, ((w.transformChanges Ms).cameras self).m_Frustum.Transform M
      = (w.cameras self).m_Frustum.Transform M := by
  induction Ms generalizing w with
  | nil => exact ⟨rfl, fun _ => rfl⟩
  | cons M Ms ih =>
    have h2 := ih (w.transformChange M)
    have h3 : ((w.transformChange M).cameras self).m_SignalKey = (w.cameras self).m_SignalKey ∧
        ∀ M2, ((w.transformChange M).cameras self).m_Frustum.Transform M2
          = (w.cameras self).m_Frustum.Transform M2 := by
      rw [transformChange_camera]
      split <;> exact ⟨rfl, fun _ => rfl⟩
    exact ⟨h2.1.trans h3.1, fun M2 => (h2.2 M2).trans (h3.2 M2)⟩

/-- Attaching gives the camera a slot. -/
theorem onAttaching_subscribed (w : World) (self : Nat) :
    (Camera.OnAttaching w self).subscribed self = true := by
  simp [Camera.OnAttaching, World.subscribed, Signal.Connect]

/-- Detaching a camera whose only slot is the one under its handle leaves it
without a slot. -/
theorem disconnect_unsubscribed (slots : List (Nat × Nat)) (next key self : Nat)
    (h : slots.any (fun e => e.2 == self) = false) :
    ((Signal.Disconnect ⟨next, slots ++ [(key, self)]⟩ key).m_Slots.any
      (fun e => e.2 == self)) = false := by
  simp only [Signal.Disconnect, List.filter_append, List.any_append, Bool.or_eq_false_iff]
  constructor
  · rw [List.any_eq_false] at h ⊢
    intro e he
    exact h e (List.mem_of_mem_filter he)
  · simp [List.filter]

/-- The box transform at a translation: the unit box moved by `(1, 2, 3)`. -/
theorem multiply_translation_example :
    (Matrix4.translation 1 2 3).Multiply ⟨⟨0, 0, 0⟩, ⟨1, 1, 1⟩⟩ = ⟨⟨1, 2, 3⟩, ⟨2, 3, 4⟩⟩ := by
  norm_num [Matrix4.Multiply, Matrix4.MultiplyPoint, Matrix4.translation, Matrix4.entry,
    BoxBounds.corners, Vector4.cmin, Vector4.cmax]

/-- Rounding to the nearest integer moves a number by at most one half. -/
theorem roundHalfEven_err (y : ℚ) : |(roundHalfEven y : ℚ) - y| ≤ 1 / 2 := by
  have h1 := Int.floor_le y
  have h2 := Int.lt_floor_add_one y
  unfold roundHalfEven
  split_ifs with ha hb hc
  · rw [abs_le]; constructor <;> linarith
  · push_cast; rw [abs_le]; constructor <;> linarith
  · rw [abs_le]; constructor <;> linarith
  · push_cast; rw [abs_le]; constructor <;> linarith

/-- An integer closer than one half is the rounded value. -/
theorem roundHalfEven_eq (y : ℚ) (m : ℤ) (h : |y - m| < 1 / 2) : roundHalfEven y = m := by
  have h1 := roundHalfEven_err y
  have h2 : |((roundHalfEven y - m : ℤ) : ℚ)| < 1 := by
    push_cast
    have : (roundHalfEven y : ℚ) - m = ((roundHalfEven y : ℚ) - y) + (y - m) := by ring
    rw [this]
    calc |((roundHalfEven y : ℚ) - y) + (y - m)| ≤ |(roundHalfEven y : ℚ) - y| + |y - m| := abs_add _ _
      _ < 1 := by linarith
  rw [← Int.cast_abs] at h2
  have h3 : |roundHalfEven y - m| < 1 := by exact_mod_cast h2
  have h4 : roundHalfEven y - m = 0 := Int.abs_lt_one_iff.mp h3
  omega

/-- Zero is stored as zero. -/
theorem binary32_zero : binary32 0 = 0 := by
  simp [binary32, roundHalfEven]

/-- The binary logarithm of a number between two consecutive powers of two. -/
theorem log_of_bracket (x : ℚ) (g : ℤ) (h1 : (2 : ℚ) ^ g ≤ |x|) (h2 : |x| < (2 : ℚ) ^ (g + 1)) :
    Int.log 2 |x| = g := by
  have hpos : 0 < |x| := lt_of_lt_of_le (by positivity) h1
  have a : g ≤ Int.log 2 |x| := by
    rw [← Int.zpow_le_iff_le_log (by norm_num) hpos]
    exact_mod_cast h1
  have b : Int.log 2 |x| < g + 1 := by
    rw [← Int.lt_zpow_iff_log_lt (by norm_num) hpos]
    exact_mod_cast h2
  omega

/-- The stored value of `x`, given its binade and the nearest multiple of the last
place. -/
theorem binary32_eval (x : ℚ) (e m : ℤ) (he : -149 ≤ e) (h1 : (2 : ℚ) ^ (e + 23) ≤ |x|)
    (h2 : |x| < (2 : ℚ) ^ (e + 23 + 1)) (hm : |x / 2 ^ e - m| < 1 / 2) :
    binary32 x = m * 2 ^ e := by
  have hl := log_of_bracket x (e + 23) h1 h2
  have hu : ulpExponent32 x = e := by
    unfold ulpExponent32
    rw [hl]
    have : e + 23 - 23 = e := by ring
    rw [this]
    exact max_eq_left he
  unfold binary32
  rw [hu, roundHalfEven_eq _ m hm]

/-- Without underflow, single-precision rounding has a relative error of at most
`2^-24`. -/
theorem binary32_err (x : ℚ) (h : inRange32 x) : |binary32 x - x| ≤ 1 / 2 ^ 24 * |x| := by
  rcases h with h | ⟨h, _⟩
  · subst h
    simp [binary32_zero]
  · have hpos : 0 < |x| := lt_of_lt_of_le (by positivity) h
    have hlog : -126 ≤ Int.log 2 |x| := by
      rw [← Int.zpow_le_iff_le_log (by norm_num) hpos]
      have : ((2 : ℕ) : ℚ) ^ (-126 : ℤ) = 1 / 2 ^ 126 := by norm_num [zpow_neg]
      rw [this]
      exact h
    have hu : ulpExponent32 x = Int.log 2 |x| - 23 := by
      unfold ulpExponent32
      exact max_eq_left (by omega)
    have hE : (0 : ℚ) < 2 ^ ulpExponent32 x := by positivity
    have hle : (2 : ℚ) ^ (Int.log 2 |x|) ≤ |x| := by
      have := Int.zpow_log_le_self (b := 2) (by norm_num) hpos
      exact_mod_cast this
    have hsplit : (2 : ℚ) ^ (Int.log 2 |x|) = 2 ^ ulpExponent32 x * 2 ^ 23 := by
      rw [hu]
      have : Int.log 2 |x| = (Int.log 2 |x| - 23) + 23 := by ring
      conv_lhs => rw [this]
      rw [zpow_add₀ (by norm_num)]
      norm_num
    have hr := roundHalfEven_err (x / 2 ^ ulpExponent32 x)
    have heq : binary32 x - x
        = ((roundHalfEven (x / 2 ^ ulpExponent32 x) : ℚ) - x / 2 ^ ulpExponent32 x)
          * 2 ^ ulpExponent32 x := by
      unfold binary32
      field_simp
    rw [heq, abs_mul, abs_of_pos hE]
    calc |(roundHalfEven (x / 2 ^ ulpExponent32 x) : ℚ) - x / 2 ^ ulpExponent32 x|
          * 2 ^ ulpExponent32 x
        ≤ 1 / 2 * 2 ^ ulpExponent32 x := by
          exact mul_le_mul_of_nonneg_right hr hE.le
      _ = 1 / 2 ^ 24 * (2 ^ ulpExponent32 x * 2 ^ 23) := by ring
      _ ≤ 1 / 2 ^ 24 * |x| := by
          apply mul_le_mul_of_nonneg_left _ (by positivity)
          rw [← hsplit]
          exact hle

/-- The `float` nearest to 0.7 is `11744051 / 2^24`. -/
theorem binary32_seven_tenths : binary32 (7 / 10) = 11744051 / 16777216 := by
  have h := binary32_eval (7 / 10) (-24) 11744051 (by norm_num)
    (by norm_num [zpow_neg, abs_of_pos]) (by norm_num [zpow_neg, abs_of_pos])
    (by norm_num [zpow_neg, abs_lt])
  rw [h]
  norm_num [zpow_neg]


/-- One more rounding: if `v` is within `ε` of `t`, relatively, and `w` within `u` of
`v`, then `w` is within `ε + u * (1 + ε)` of `t`. -/
theorem err_step (w v t ε u : ℚ) (hu : 0 ≤ u) (hv : |v - t| ≤ ε * |t|)
    (hw : |w - v| ≤ u * |v|) : |w - t| ≤ (ε + u * (1 + ε)) * |t| := by
  have h1 : |v| ≤ |v - t| + |t| := by
    have := abs_add (v - t) t
    simpa using this
  have h2 : |w - t| ≤ |w - v| + |v - t| := by
    have := abs_add (w - v) (v - t)
    simpa using this
  have h3 : u * |v| ≤ u * (ε * |t| + |t|) := mul_le_mul_of_nonneg_left (by linarith) hu
  nlinarith

/-- The scale factor as `float` arithmetic computes it: with `near` the rounded
product `k * n0`, the rounded quotient `near / n0` is within `2^-24 + 2^-24 * (1 +
2^-24)` of `k`, relatively. -/
theorem toNear_err (k n0 : ℚ) (hn : n0 ≠ 0) (h1 : inRange32 (k * n0))
    (h2 : inRange32 (binary32 (k * n0) / n0)) :
    |binary32 (binary32 (k * n0) / n0) - k|
      ≤ (1 / 2 ^ 24 + 1 / 2 ^ 24 * (1 + 1 / 2 ^ 24)) * |k| := by
  have e1 := binary32_err _ h1
  have e2 := binary32_err _ h2
  have hq : |binary32 (k * n0) / n0 - k| ≤ 1 / 2 ^ 24 * |k| := by
    have hn0 : 0 < |n0| := abs_pos.mpr hn
    have : binary32 (k * n0) / n0 - k = (binary32 (k * n0) - k * n0) / n0 := by
      field_simp
      ring
    rw [this, abs_div, div_le_iff₀ hn0]
    calc |binary32 (k * n0) - k * n0| ≤ 1 / 2 ^ 24 * |k * n0| := e1
      _ = 1 / 2 ^ 24 * |k| * |n0| := by rw [abs_mul]; ring
  exact err_step _ _ _ _ _ (by norm_num) hq e2

/-- A stored extent `x` scaled as `float` arithmetic does it: the rounded product of
`x` and a factor `s` that is within `ε2 = 2^-24 + 2^-24 * (1 + 2^-24)` of `k` is
within `2^-22` of `k * x`, relatively. -/
theorem extent_err (x s k : ℚ)
    (hs : |s - k| ≤ (1 / 2 ^ 24 + 1 / 2 ^ 24 * (1 + 1 / 2 ^ 24)) * |k|)
    (h3 : inRange32 (x * s)) :
    |binary32 (x * s) - k * x| ≤ |k * x| / 2 ^ 22 := by
  have e3 := binary32_err _ h3
  have hv : |x * s - k * x| ≤ (1 / 2 ^ 24 + 1 / 2 ^ 24 * (1 + 1 / 2 ^ 24)) * |k * x| := by
    have : x * s - k * x = x * (s - k) := by ring
    rw [this, abs_mul, abs_mul]
    have hx : 0 ≤ |x| := abs_nonneg x
    calc |x| * |s - k| ≤ |x| * ((1 / 2 ^ 24 + 1 / 2 ^ 24 * (1 + 1 / 2 ^ 24)) * |k|) :=
          mul_le_mul_of_nonneg_left hs hx
      _ = (1 / 2 ^ 24 + 1 / 2 ^ 24 * (1 + 1 / 2 ^ 24)) * (|k| * |x|) := by ring
  have h := err_step _ _ _ _ _ (by norm_num) hv e3
  have hk : 0 ≤ |k * x| := abs_nonneg _
  calc |binary32 (x * s) - k * x|
      ≤ ((1 / 2 ^ 24 + 1 / 2 ^ 24 * (1 + 1 / 2 ^ 24))
          + 1 / 2 ^ 24 * (1 + (1 / 2 ^ 24 + 1 / 2 ^ 24 * (1 + 1 / 2 ^ 24)))) * |k * x| := h
    _ ≤ 1 / 2 ^ 22 * |k * x| := mul_le_mul_of_nonneg_right (by norm_num) hk
    _ = |k * x| / 2 ^ 22 := by ring

/-- The product `7 * 0.7f` is stored as `10276045 / 2^21`. -/
theorem binary32_near_example :
    binary32 (7 * (11744051 / 16777216)) = 10276045 / 2097152 := by
  have h := binary32_eval (7 * (11744051 / 16777216)) (-21) 10276045 (by norm_num)
    (by norm_num [zpow_neg, abs_of_pos]) (by norm_num [zpow_neg, abs_of_pos])
    (by norm_num [zpow_neg, abs_lt])
  rw [h]
  norm_num [zpow_neg]

/-- The quotient of that product by `0.7f` is stored as `7 + 2^-21`, not as 7. -/
theorem binary32_toNear_example :
    binary32 (10276045 / 2097152 / (11744051 / 16777216)) = 14680065 / 2097152 := by
  have h := binary32_eval (10276045 / 2097152 / (11744051 / 16777216)) (-21) 14680065
    (by norm_num) (by norm_num [zpow_neg, abs_of_pos]) (by norm_num [zpow_neg, abs_of_pos])
    (by norm_num [zpow_neg, abs_lt])
  rw [h]
  norm_num [zpow_neg]

/-- The number `7 + 2^-21` is a `float`, and so is its negative. -/
theorem binary32_scaled_example :
    binary32 (14680065 / 2097152) = 14680065 / 2097152 ∧
    binary32 (-(14680065 / 2097152)) = -(14680065 / 2097152) := by
  have h := binary32_eval (14680065 / 2097152) (-21) 14680065
    (by norm_num) (by norm_num [zpow_neg, abs_of_pos]) (by norm_num [zpow_neg, abs_of_pos])
    (by norm_num [zpow_neg, abs_lt])
  have h2 := binary32_eval (-(14680065 / 2097152)) (-21) (-14680065)
    (by norm_num) (by norm_num [zpow_neg, abs_of_pos]) (by norm_num [zpow_neg, abs_of_pos])
    (by norm_num [zpow_neg, abs_lt])
  rw [h, h2]
  norm_num [zpow_neg]

/-! ## The claims -/

/-- C1, at the input where the code departs from it: after
`OrthoOffCenter(-1, 1, -1, 1, 1, 10)` on a fresh camera, `GetProjectionMatrix()`
returns the orthographic matrix, `GetProjectionMatrix(GetNear(), GetFar())` the
perspective matrix of the same extents (the flag was set to true), and the two
differ. -/
theorem C1_orthoOffCenter_stored_matrix_not_rederived :
    ((Camera.Create 0).OrthoOffCenter (-1) 1 (-1) 1 1 10).GetProjectionMatrix
      = ⟨[1, 0, 0, 0,  0, 1, 0, 0,  0, 0, -2 / 9, 0,  0, 0, -11 / 9, 1]⟩ ∧
    ((Camera.Create 0).OrthoOffCenter (-1) 1 (-1) 1 1 10).GetProjectionMatrix2
        ((Camera.Create 0).OrthoOffCenter (-1) 1 (-1) 1 1 10).GetNear
        ((Camera.Create 0).OrthoOffCenter (-1) 1 (-1) 1 1 10).GetFar
      = ⟨[1, 0, 0, 0,  0, 1, 0, 0,  0, 0, -11 / 9, -1,  0, 0, -20 / 9, 0]⟩ ∧
    ((Camera.Create 0).OrthoOffCenter (-1) 1 (-1) 1 1 10).GetProjectionMatrix ≠
      ((Camera.Create 0).OrthoOffCenter (-1) 1 (-1) 1 1 10).GetProjectionMatrix2
        ((Camera.Create 0).OrthoOffCenter (-1) 1 (-1) 1 1 10).GetNear
        ((Camera.Create 0).OrthoOffCenter (-1) 1 (-1) 1 1 10).GetFar := by
  refine ⟨?_, ?_, orthoOffCenter_never_rederives _ _ _ _ _ _ _⟩
  · norm_num [Camera.GetProjectionMatrix, Camera.OrthoOffCenter, Matrix4.OrthoOffCenter]
  · norm_num [Camera.GetProjectionMatrix2, Camera.OrthoOffCenter, Camera.GetNear,
      Camera.GetFar, Camera.param, Matrix4.PerspectiveOffCenter]

/-- C2: for every `fov`, `aspect`, `near`, `far` (the valid ones included), on any
camera, after `PerspectiveFov(fov, aspect, near, far)` `GetNear()` is `near`,
`GetFar()` is `far`, `IsPerspective()` is true, and the stored extents are
`[-right, right, -top, top]` with `top = near * tan(fov / 2)` and
`right = top * aspect`. -/
theorem C2_perspectiveFov_stored_state (tan : ℚ → ℚ) (c : Camera) (fov aspect near far : ℚ) :
    (c.PerspectiveFov tan fov aspect near far).GetNear = near ∧
    (c.PerspectiveFov tan fov aspect near far).GetFar = far ∧
    (c.PerspectiveFov tan fov aspect near far).IsPerspective = true ∧
    (c.PerspectiveFov tan fov aspect near far).param 3 = near * tan (fov / 2) ∧
    (c.PerspectiveFov tan fov aspect near far).param 1 = near * tan (fov / 2) * aspect ∧
    (c.PerspectiveFov tan fov aspect near far).param 0 =
      -(c.PerspectiveFov tan fov aspect near far).param 1 ∧
    (c.PerspectiveFov tan fov aspect near far).param 2 =
      -(c.PerspectiveFov tan fov aspect near far).param 3 ∧
    (c.PerspectiveFov tan fov aspect near far).m_ProjectionParams =
      [-(near * tan (fov / 2) * aspect), near * tan (fov / 2) * aspect,
       -(near * tan (fov / 2)), near * tan (fov / 2), near, far] :=
  ⟨rfl, rfl, rfl, rfl, rfl, rfl, rfl, rfl⟩

/-- C3 refuted in the code's `float` arithmetic: for the perspective camera with
extents `[-1, 1, -1, 1]` and near `0.7f` (the `float` nearest to 0.7) and `k = 7`,
`GetFrustum(k * n0, far)` computes the factor `(k * n0) / n0` as `7 + 2^-21` and
sets up the volume with right extent `7 + 2^-21`, which is not `k * r = 7`. -/
theorem C3_scaling_not_exact_in_single_precision :
    Camera.nearSevenTenths.IsPerspective = true ∧
    0 < Camera.nearSevenTenths.GetNear ∧
    (0 : ℚ) < 7 ∧
    Camera.nearSevenTenths.GetNear = binary32 (7 / 10) ∧
    (Camera.nearSevenTenths.GetFrustum2F (binary32 (7 * Camera.nearSevenTenths.GetNear))
      10).m_Right = 14680065 / 2097152 ∧
    (Camera.nearSevenTenths.GetFrustum2F (binary32 (7 * Camera.nearSevenTenths.GetNear))
      10).m_Right ≠ 7 * Camera.nearSevenTenths.param 1 := by
  have hN : Camera.nearSevenTenths.GetNear = 11744051 / 16777216 := rfl
  have hR : Camera.nearSevenTenths.param 1 = 1 := rfl
  have hv : (Camera.nearSevenTenths.GetFrustum2F
      (binary32 (7 * Camera.nearSevenTenths.GetNear)) 10).m_Right = 14680065 / 2097152 := by
    show binary32 (Camera.nearSevenTenths.param 1 *
      binary32 (binary32 (7 * Camera.nearSevenTenths.GetNear) / Camera.nearSevenTenths.GetNear))
        = _
    rw [hN, hR, binary32_near_example, binary32_toNear_example, one_mul,
      binary32_scaled_example.1]
  refine ⟨rfl, ?_, by norm_num, ?_, hv, ?_⟩
  · rw [hN]; norm_num
  · rw [hN, binary32_seven_tenths]
  · rw [hv, hR]; norm_num

/-- C3 as amended: for a perspective camera with stored extents `(l, r, b, t)` and
stored near `n0 > 0`, every `k > 0` and every `far`, where no intermediate result
underflows or overflows, `GetFrustum(k * n0, far)` in `float` arithmetic sets up
the derived volume with the near it is passed (the product `k * n0` as stored,
within `2^-24` of `k * n0`, relatively), the caller's far, the world transform of
the camera's own volume, and extents that are `(k*l, k*r, k*b, k*t)` up to
rounding: each is within `2^-22` of `k` times the stored extent, relatively. -/
theorem C3_getFrustum_scales_up_to_rounding (c : Camera) (k far : ℚ)
    (_hp : c.IsPerspective = true) (hn : 0 < c.GetNear) (_hk : 0 < k)
    (h1 : inRange32 (k * c.GetNear))
    (h2 : inRange32 (binary32 (k * c.GetNear) / c.GetNear))
    (h3 : ∀ i, i < 4 →
      inRange32 (c.param i * binary32 (binary32 (k * c.GetNear) / c.GetNear))) :
    (c.GetFrustum2F (binary32 (k * c.GetNear)) far).m_Near = binary32 (k * c.GetNear) ∧
    |binary32 (k * c.GetNear) - k * c.GetNear| ≤ |k * c.GetNear| / 2 ^ 24 ∧
    (c.GetFrustum2F (binary32 (k * c.GetNear)) far).m_Far = far ∧
    (c.GetFrustum2F (binary32 (k * c.GetNear)) far).GetTransformMatrix
      = c.m_Frustum.GetTransformMatrix ∧
    |(c.GetFrustum2F (binary32 (k * c.GetNear)) far).m_Left - k * c.param 0|
      ≤ |k * c.param 0| / 2 ^ 22 ∧
    |(c.GetFrustum2F (binary32 (k * c.GetNear)) far).m_Right - k * c.param 1|
      ≤ |k * c.param 1| / 2 ^ 22 ∧
    |(c.GetFrustum2F (binary32 (k * c.GetNear)) far).m_Bottom - k * c.param 2|
      ≤ |k * c.param 2| / 2 ^ 22 ∧
    |(c.GetFrustum2F (binary32 (k * c.GetNear)) far).m_Top - k * c.param 3|
      ≤ |k * c.param 3| / 2 ^ 22 := by
  have hs := toNear_err k c.GetNear hn.ne.symm h1 h2
  have e1 : |binary32 (k * c.GetNear) - k * c.GetNear| ≤ |k * c.GetNear| / 2 ^ 24 := by
    have := binary32_err _ h1
    linarith
  exact ⟨rfl, e1, rfl, rfl,
    extent_err (c.param 0) _ k hs (h3 0 (by norm_num)),
    extent_err (c.param 1) _ k hs (h3 1 (by norm_num)),
    extent_err (c.param 2) _ k hs (h3 2 (by norm_num)),
    extent_err (c.param 3) _ k hs (h3 3 (by norm_num))⟩

/-- C3 as amended, at a concrete camera: extents `[-1, 1, -1, 1]`, near `0.7f`,
`k = 7`, `far = 10`, where the right extent comes out as `7 + 2^-21`. -/
theorem C3_getFrustum_scales_up_to_rounding_witness :
    Camera.nearSevenTenths.IsPerspective = true ∧
    0 < Camera.nearSevenTenths.GetNear ∧
    (0 : ℚ) < 7 ∧
    inRange32 (7 * Camera.nearSevenTenths.GetNear) ∧
    inRange32 (binary32 (7 * Camera.nearSevenTenths.GetNear) / Camera.nearSevenTenths.GetNear) ∧
    (∀ i, i < 4 → inRange32 (Camera.nearSevenTenths.param i *
      binary32 (binary32 (7 * Camera.nearSevenTenths.GetNear)
        / Camera.nearSevenTenths.GetNear))) ∧
    |(Camera.nearSevenTenths.GetFrustum2F (binary32 (7 * Camera.nearSevenTenths.GetNear))
        10).m_Right - 7 * Camera.nearSevenTenths.param 1|
      ≤ |7 * Camera.nearSevenTenths.param 1| / 2 ^ 22 :=
  have hN : Camera.nearSevenTenths.GetNear = 11744051 / 16777216 := rfl
  have g0 : (0 : ℚ) < Camera.nearSevenTenths.GetNear := by rw [hN]; norm_num
  have g1 : inRange32 (7 * Camera.nearSevenTenths.GetNear) := by
    rw [hN]
    exact Or.inr (by norm_num [abs_of_pos])
  have g2 : inRange32 (binary32 (7 * Camera.nearSevenTenths.GetNear)
      / Camera.nearSevenTenths.GetNear) := by
    rw [hN, binary32_near_example]
    exact Or.inr (by norm_num [abs_of_pos])
  have g3 : ∀ i, i < 4 → inRange32 (Camera.nearSevenTenths.param i *
      binary32 (binary32 (7 * Camera.nearSevenTenths.GetNear)
        / Camera.nearSevenTenths.GetNear)) := by
    intro i hi
    rw [hN, binary32_near_example, binary32_toNear_example]
    have p0 : Camera.nearSevenTenths.param 0 = -1 := rfl
    have p1 : Camera.nearSevenTenths.param 1 = 1 := rfl
    have p2 : Camera.nearSevenTenths.param 2 = -1 := rfl
    have p3 : Camera.nearSevenTenths.param 3 = 1 := rfl
    interval_cases i
    · rw [p0]; exact Or.inr (by norm_num [abs_of_pos])
    · rw [p1]; exact Or.inr (by norm_num [abs_of_pos])
    · rw [p2]; exact Or.inr (by norm_num [abs_of_pos])
    · rw [p3]; exact Or.inr (by norm_num [abs_of_pos])
  ⟨rfl, g0, by norm_num, g1, g2, g3,
   (C3_getFrustum_scales_up_to_rounding Camera.nearSevenTenths 7 10 rfl g0 (by norm_num)
     g1 g2 g3).2.2.2.2.2.1⟩

/-- C4: for a camera configured by any of the three setup calls with a positive
near and then placed by any run of `Transform` calls, `GetFrustum(GetNear(),
GetFar())` is the volume `GetFrustum()` returns (same six extents, same world
transform), so every inclusion test answers the same on both, for every probe. -/
theorem C4_getFrustum_at_own_near_far (tan : ℚ → ℚ) (c0 : Camera) (s : SetupCall)
    (Ms : List Matrix4) (hn : 0 < s.near) :
    ((s.run tan c0).Transforms Ms).GetFrustum2 ((s.run tan c0).Transforms Ms).GetNear
        ((s.run tan c0).Transforms Ms).GetFar
      = ((s.run tan c0).Transforms Ms).GetFrustum ∧
    ∀ (P : Type) (IsInsideFast : Frustum → P → Bool) (probe : P),
      IsInsideFast (((s.run tan c0).Transforms Ms).GetFrustum2
          ((s.run tan c0).Transforms Ms).GetNear ((s.run tan c0).Transforms Ms).GetFar) probe
        = IsInsideFast ((s.run tan c0).Transforms Ms).GetFrustum probe := by
  have hk := transforms_keep Ms (s.run tan c0)
  have hv : ((s.run tan c0).Transforms Ms).volumeMatchesParams :=
    hk.2.mpr (setup_volumeMatchesParams tan c0 s)
  have hnear : ((s.run tan c0).Transforms Ms).GetNear ≠ 0 := by
    have h1 : ((s.run tan c0).Transforms Ms).GetNear = (s.run tan c0).GetNear := by
      simp only [Camera.GetNear, Camera.param, hk.1]
    rw [h1, setup_getNear]
    exact hn.ne.symm
  have he := getFrustum2_own _ hv hnear
  exact ⟨he, fun P t probe => by rw [he]⟩

/-- C4 at a concrete camera: `OrthoOffCenter(-2, 2, -1, 1, 1, 10)` on a fresh camera
followed by two `Transform` calls. -/
theorem C4_getFrustum_at_own_near_far_witness :
    0 < (SetupCall.orthoOffCenter (-2) 2 (-1) 1 1 10).near ∧
    (((SetupCall.orthoOffCenter (-2) 2 (-1) 1 1 10).run (fun x => x) (Camera.Create 0)).Transforms
        [Matrix4.identity, Matrix4.OrthoOffCenter 0 1 0 1 0 1]).GetFrustum2 1 10
      = ⟨-2, 2, -1, 1, 1, 10, Matrix4.OrthoOffCenter 0 1 0 1 0 1⟩ ∧
    (((SetupCall.orthoOffCenter (-2) 2 (-1) 1 1 10).run (fun x => x) (Camera.Create 0)).Transforms
        [Matrix4.identity, Matrix4.OrthoOffCenter 0 1 0 1 0 1]).GetFrustum
      = ⟨-2, 2, -1, 1, 1, 10, Matrix4.OrthoOffCenter 0 1 0 1 0 1⟩ :=
  have h0 : 0 < (SetupCall.orthoOffCenter (-2) 2 (-1) 1 1 10).near := by
    norm_num [SetupCall.near]
  have h := (C4_getFrustum_at_own_near_far (fun x => x) (Camera.Create 0)
    (SetupCall.orthoOffCenter (-2) 2 (-1) 1 1 10)
    [Matrix4.identity, Matrix4.OrthoOffCenter 0 1 0 1 0 1] h0).1
  ⟨h0, h.trans rfl, rfl⟩

/-- C5 refuted: with `left > right`, `bottom > top` and `near > far`,
`PerspectiveOffCenter(1, -1, 1, -1, 5, 1)` on a fresh camera is not rejected: the
camera state changes, the arguments are stored, the perspective matrix of these
extents is built and returned, and `GetProjectionMatrix(5, 1)` returns a matrix as
well. -/
theorem C5_invalid_extents_not_rejected :
    invalidExtents 1 (-1) 1 (-1) 5 1 ∧
    (Camera.Create 0).PerspectiveOffCenter 1 (-1) 1 (-1) 5 1 ≠ Camera.Create 0 ∧
    ((Camera.Create 0).PerspectiveOffCenter 1 (-1) 1 (-1) 5 1).m_ProjectionParams
      = [1, -1, 1, -1, 5, 1] ∧
    ((Camera.Create 0).PerspectiveOffCenter 1 (-1) 1 (-1) 5 1).GetProjectionMatrix
      = Matrix4.PerspectiveOffCenter 1 (-1) 1 (-1) 5 1 ∧
    ((Camera.Create 0).PerspectiveOffCenter 1 (-1) 1 (-1) 5 1).GetProjectionMatrix2 5 1
      = Matrix4.PerspectiveOffCenter 1 (-1) 1 (-1) 5 1 := by
  refine ⟨?_, ?_, rfl, rfl, rfl⟩
  · exact Or.inl (by norm_num)
  · intro h
    have hp := congrArg Camera.m_Perspective h
    simp [Camera.PerspectiveOffCenter, Camera.Create, Camera.new] at hp

/-- C5 as amended: no operation validates its arguments.  For all arguments, valid
or not, each setup operation stores the six extents (for `PerspectiveFov` the
derived ones) and builds its matrix and the volume from them, `PerspectiveFov` and
`PerspectiveOffCenter` setting the flag to true (the flag after `OrthoOffCenter` is
left out of the statement); `GetProjectionMatrix(near, far)` returns, for every
`near` and `far`, the matrix built from the stored left, right, bottom, top and the
given `near`, `far`, perspective if the flag is set and orthographic otherwise. -/
theorem C5_setup_and_rederivation_unvalidated (tan : ℚ → ℚ) (c : Camera)
    (fov aspect l r b t n f : ℚ) :
    ((c.PerspectiveOffCenter l r b t n f).m_ProjectionParams = [l, r, b, t, n, f] ∧
     (c.PerspectiveOffCenter l r b t n f).IsPerspective = true ∧
     (c.PerspectiveOffCenter l r b t n f).GetProjectionMatrix
       = Matrix4.PerspectiveOffCenter l r b t n f ∧
     (c.PerspectiveOffCenter l r b t n f).GetFrustum = c.m_Frustum.Setup l r b t n f) ∧
    ((c.OrthoOffCenter l r b t n f).m_ProjectionParams = [l, r, b, t, n, f] ∧
     (c.OrthoOffCenter l r b t n f).GetProjectionMatrix
       = Matrix4.OrthoOffCenter l r b t n f ∧
     (c.OrthoOffCenter l r b t n f).GetFrustum = c.m_Frustum.Setup l r b t n f) ∧
    ((c.PerspectiveFov tan fov aspect n f).m_ProjectionParams
       = [-(n * tan (fov / 2) * aspect), n * tan (fov / 2) * aspect,
          -(n * tan (fov / 2)), n * tan (fov / 2), n, f] ∧
     (c.PerspectiveFov tan fov aspect n f).IsPerspective = true ∧
     (c.PerspectiveFov tan fov aspect n f).GetProjectionMatrix
       = Matrix4.PerspectiveOffCenter (-(n * tan (fov / 2) * aspect))
           (n * tan (fov / 2) * aspect) (-(n * tan (fov / 2))) (n * tan (fov / 2)) n f ∧
     (c.PerspectiveFov tan fov aspect n f).GetFrustum
       = c.m_Frustum.Setup (-(n * tan (fov / 2) * aspect))
           (n * tan (fov / 2) * aspect) (-(n * tan (fov / 2))) (n * tan (fov / 2)) n f) ∧
    c.GetProjectionMatrix2 n f =
      (if c.IsPerspective then
        Matrix4.PerspectiveOffCenter (c.param 0) (c.param 1) (c.param 2) (c.param 3) n f
      else
        Matrix4.OrthoOffCenter (c.param 0) (c.param 1) (c.param 2) (c.param 3) n f) :=
  ⟨⟨rfl, rfl, rfl, rfl⟩, ⟨rfl, rfl, rfl⟩, ⟨rfl, rfl, rfl, rfl⟩, rfl⟩

/-- C6: over the modelled subscriber table of the node.  After `OnAttaching`, any
run of transform-change events followed by an event carrying `M` leaves the
camera's volume as it was before attaching but with world transform `M` (the
matrix itself, not compounded).  For a camera that had no slot before attaching,
`OnDetaching` then leaves it without a slot and with handle 0, and no later run of
events changes the camera, its volume included. -/
theorem C6_attach_notify_detach (w : World) (self : Nat) (Ms : List Matrix4) (M : Matrix4) :
    ((((Camera.OnAttaching w self).transformChanges Ms).transformChange M).cameras
        self).GetFrustum = (w.cameras self).GetFrustum.Transform M ∧
    ((((Camera.OnAttaching w self).transformChanges Ms).transformChange M).cameras
        self).GetFrustum.GetTransformMatrix = M ∧
    (w.subscribed self = false →
      (Camera.OnDetaching (((Camera.OnAttaching w self).transformChanges Ms).transformChange M)
          self).subscribed self = false ∧
      ((Camera.OnDetaching (((Camera.OnAttaching w self).transformChanges Ms).transformChange M)
          self).cameras self).m_SignalKey = 0 ∧
      ∀ Ms2 : List Matrix4,
        (((Camera.OnDetaching
            (((Camera.OnAttaching w self).transformChanges Ms).transformChange M)
            self).transformChanges Ms2).cameras self).GetFrustum
          = ((((Camera.OnAttaching w self).transformChanges Ms).transformChange M).cameras
              self).GetFrustum) := by
  have hsig : (((Camera.OnAttaching w self).transformChanges Ms).transformChange M).node.OnTransformChange
      = (Camera.OnAttaching w self).node.OnTransformChange :=
    (transformChange_signal _ M).trans (transformChanges_signal Ms _)
  have hsub : ((Camera.OnAttaching w self).transformChanges Ms).subscribed self = true := by
    have h := onAttaching_subscribed w self
    simp only [World.subscribed, transformChanges_signal] at h ⊢
    exact h
  have hkeep := transformChanges_keep Ms (Camera.OnAttaching w self) self
  have hatt : ((Camera.OnAttaching w self).cameras self).m_Frustum = (w.cameras self).m_Frustum := by
    simp [Camera.OnAttaching, World.setCamera]
  have hcam : (((Camera.OnAttaching w self).transformChanges Ms).transformChange M).cameras self
      = (((Camera.OnAttaching w self).transformChanges Ms).cameras self).Transform M := by
    rw [transformChange_camera, hsub]
    rfl
  have h1 : ((((Camera.OnAttaching w self).transformChanges Ms).transformChange M).cameras
        self).GetFrustum = (w.cameras self).GetFrustum.Transform M := by
    rw [hcam]
    show (((Camera.OnAttaching w self).transformChanges Ms).cameras self).m_Frustum.Transform M
      = (w.cameras self).m_Frustum.Transform M
    rw [hkeep.2 M, hatt]
  refine ⟨h1, by rw [h1]; rfl, fun hw => ?_⟩
  have hkey : ((((Camera.OnAttaching w self).transformChanges Ms).transformChange M).cameras
        self).m_SignalKey = w.node.OnTransformChange.m_NextKey + 1 := by
    rw [hcam]
    show (((Camera.OnAttaching w self).transformChanges Ms).cameras self).m_SignalKey = _
    rw [hkeep.1]
    simp [Camera.OnAttaching, World.setCamera, Signal.Connect]
  have hdet : (Camera.OnDetaching
      (((Camera.OnAttaching w self).transformChanges Ms).transformChange M) self).subscribed self
        = false := by
    simp only [World.subscribed, Camera.OnDetaching, hsig, hkey]
    exact disconnect_unsubscribed _ _ _ _ hw
  refine ⟨hdet, by simp [Camera.OnDetaching, World.setCamera], fun Ms2 => ?_⟩
  rw [transformChanges_unsubscribed Ms2 _ self hdet]
  simp [Camera.OnDetaching, World.setCamera, Camera.GetFrustum]

/-- C6 at a concrete scene: camera 0 of a fresh scene is attached, the node moves
twice, the camera is detached, the node moves again. -/
theorem C6_attach_notify_detach_witness :
    World.fresh.subscribed 0 = false ∧
    ((((Camera.OnAttaching World.fresh 0).transformChanges
        [Matrix4.translation 1 0 0]).transformChange (Matrix4.translation 0 2 0)).cameras
        0).GetFrustum.GetTransformMatrix = Matrix4.translation 0 2 0 ∧
    (Camera.OnDetaching (((Camera.OnAttaching World.fresh 0).transformChanges
        [Matrix4.translation 1 0 0]).transformChange (Matrix4.translation 0 2 0))
        0).subscribed 0 = false ∧
    ((Camera.OnDetaching (((Camera.OnAttaching World.fresh 0).transformChanges
        [Matrix4.translation 1 0 0]).transformChange (Matrix4.translation 0 2 0))
        0).cameras 0).m_SignalKey = 0 ∧
    (((Camera.OnDetaching (((Camera.OnAttaching World.fresh 0).transformChanges
        [Matrix4.translation 1 0 0]).transformChange (Matrix4.translation 0 2 0))
        0).transformChanges [Matrix4.translation 0 0 3]).cameras 0).GetFrustum
      = ((((Camera.OnAttaching World.fresh 0).transformChanges
          [Matrix4.translation 1 0 0]).transformChange (Matrix4.translation 0 2 0)).cameras
          0).GetFrustum :=
  have h := C6_attach_notify_detach World.fresh 0 [Matrix4.translation 1 0 0]
    (Matrix4.translation 0 2 0)
  ⟨rfl, h.2.1, (h.2.2 rfl).1, (h.2.2 rfl).2.1, (h.2.2 rfl).2.2 [Matrix4.translation 0 0 3]⟩

/-- C7: for every camera `c`, `Clone()` returns a camera whose `projectionParams`,
`isPerspective`, `projectionMatrix`, `frustum` and `shadowAABB` are those of `c`
and whose subscription handle is 0, whatever the handle of `c`; in particular the
clone of a camera that has just been attached (handle not 0) has handle 0.  The
operation is a function of `c` and of no subscriber table: `c` is not changed and
no subscription is made. -/
theorem C7_clone_copies_and_is_detached (d : ℚ) (c : Camera) :
    (c.Clone d).m_ProjectionParams = c.m_ProjectionParams ∧
    (c.Clone d).m_Perspective = c.m_Perspective ∧
    (c.Clone d).m_ProjectionMatrix = c.m_ProjectionMatrix ∧
    (c.Clone d).m_Frustum = c.m_Frustum ∧
    (c.Clone d).m_ShadowAABB = c.m_ShadowAABB ∧
    (c.Clone d).m_SignalKey = 0 ∧
    ∀ (w : World) (self : Nat),
      ((Camera.OnAttaching w self).cameras self).m_SignalKey ≠ 0 ∧
      (((Camera.OnAttaching w self).cameras self).Clone d).m_SignalKey = 0 := by
  refine ⟨rfl, rfl, rfl, rfl, rfl, rfl, fun w self => ⟨?_, rfl⟩⟩
  simp [Camera.OnAttaching, World.setCamera, Signal.Connect]

/-- C8, at the input where the code departs from it: `Clone()` does not copy
`m_ShadowFar`.  Whatever value `d` a fresh camera starts with, after
`SetShadowFar(d + 1)` the clone's `GetShadowFar()` is `d`, not `d + 1`; and for
every camera and every `f` the clone's `GetShadowFar()` is `d`. -/
theorem C8_clone_does_not_copy_shadowFar (d : ℚ) :
    (((Camera.Create d).SetShadowFar (d + 1)).Clone d).GetShadowFar = d ∧
    (((Camera.Create d).SetShadowFar (d + 1)).Clone d).GetShadowFar ≠
      ((Camera.Create d).SetShadowFar (d + 1)).GetShadowFar ∧
    ∀ (c : Camera) (f : ℚ), ((c.SetShadowFar f).Clone d).GetShadowFar = d := by
  refine ⟨rfl, ?_, fun _ _ => rfl⟩
  show d ≠ d + 1
  intro h
  linarith

/-- C9: for every camera and all points `p`, `q`, `SetShadowBounds(p, q)` followed
by `GetShadowBounds(false)` returns the box whose min corner is the component-wise
minimum of `p` and `q` and whose max corner is their component-wise maximum, the
same box for `(q, p)`; `SetShadowBounds((1,1,1), (-1,-1,-1))` gives min
`(-1,-1,-1)`, max `(1,1,1)`; a freshly created camera returns the degenerate box at
the origin. -/
theorem C9_setShadowBounds_normalizes (c : Camera) (p q : Vector4) (d : ℚ) :
    (c.SetShadowBounds p q).GetShadowBounds false
      = ⟨⟨min p.x q.x, min p.y q.y, min p.z q.z⟩, ⟨max p.x q.x, max p.y q.y, max p.z q.z⟩⟩ ∧
    (c.SetShadowBounds q p).GetShadowBounds false
      = (c.SetShadowBounds p q).GetShadowBounds false ∧
    (c.SetShadowBounds ⟨1, 1, 1⟩ ⟨-1, -1, -1⟩).GetShadowBounds false
      = ⟨⟨-1, -1, -1⟩, ⟨1, 1, 1⟩⟩ ∧
    (Camera.Create d).GetShadowBounds false = ⟨⟨0, 0, 0⟩, ⟨0, 0, 0⟩⟩ := by
  refine ⟨rfl, ?_, ?_, ?_⟩
  · simp only [Camera.GetShadowBounds, Camera.SetShadowBounds, BoxBounds.SetMinMax,
      Vector4.cmin, Vector4.cmax, min_comm q.x, min_comm q.y, min_comm q.z,
      max_comm q.x, max_comm q.y, max_comm q.z]
  · simp [Camera.GetShadowBounds, Camera.SetShadowBounds, BoxBounds.SetMinMax,
      Vector4.cmin, Vector4.cmax]
  · simp [Camera.GetShadowBounds, Camera.Create, Camera.new, BoxBounds.ofCorners,
      Vector4.cmin, Vector4.cmax, Vector4.ofScalar]

/-- C10: for every camera and every matrix `M`, after `Transform(M)` the box
`GetShadowBounds(true)` is `M` applied to the box `GetShadowBounds(false)`, and
`GetShadowBounds(false)` is the box it was before `Transform`. -/
theorem C10_shadowBounds_world_space (c : Camera) (M : Matrix4) :
    (c.Transform M).GetShadowBounds true = M.Multiply ((c.Transform M).GetShadowBounds false) ∧
    (c.Transform M).GetShadowBounds false = c.GetShadowBounds false :=
  ⟨rfl, rfl⟩

end fury
